import Mathlib

/-!
Shallow embedding of the merge-into pipeline shape builder from
`src/query/service/src/pipelines/builders/builder_merge_into.rs`.

The builder mutates `self.main_pipeline` only through four structural
operations (`add_pipe`, `try_resize`, `resize_partial_one`,
`reorder_inputs`).  We model the pipeline state as its current output
port count together with the ordered list of structural operations the
builder has appended; each pipe item is tagged with the kind of the
processor the source constructs at that position, plus its declared
input/output port counts.  The builder functions below are direct
transcriptions of the Rust functions as state-passing pure functions:
`build_pipeline(&input)` is represented by the entry output-port count
handed to the function (or by an arbitrary starting state `pb`).
-/

namespace MergeDemo

/-- The merge variant, `common_sql::binder::MergeIntoType` (the source spells
the matched-only constructor `MatechedOnly`). -/
inductive MergeIntoType where
  | FullOperation
  | InsertOnly
  | MatechedOnly
deriving DecidableEq

/-- Kind tag for the processor placed at one pipe-item position by the
builder.  Each constructor corresponds to one distinct processor type
constructed in `builder_merge_into.rs`; `rowIdAggregate` records the number
of permits of the I/O admission semaphore handed to
`FuseTable::rowid_aggregate_mutator`, and `addRowNumber` records the node
index given to `TransformAddRowNumberColumnProcessor`. -/
inductive ItemKind where
  | matchedSplit
  | notMatched
  | rowNumberProject
  | dummy
  | fillDefault
  | fillComputed
  | clusterSort
  | rowIdAggregate (permits : Nat)
  | serializeBlock
  | serializeSegment
  | accumulateRowNumber
  | mergeIntoSplit
  | addRowNumber (node_index : Nat)
  | rowNumberAndLogSplit
  | deduplicateRowNumber
  | extractHashTable
deriving DecidableEq

/-- One pipe item: a processor with its declared input and output port
counts (`PipeItem { processor, inputs_port, outputs_port }` in the source,
keeping only the port counts and the processor kind). -/
structure PItem where
  kind : ItemKind
  nIn : Nat
  nOut : Nat
deriving DecidableEq

/-- Modelled from the spec: `MatchedSplitProcessor` (storage collaborator);
its pipe item has one input and two outputs, output 0 carrying the row-id
stream and output 1 the matched-update stream, as drawn in the source's
diagram ("(0) -> output_port_row_id / (1) -> output_port_updated"). -/
def matchedSplitItem : PItem := ⟨ItemKind.matchedSplit, 1, 2⟩

/-- Modelled from the spec: `MergeIntoNotMatchedProcessor` is a one-input
one-output transform producing the unmatched-insert stream. -/
def notMatchedItem : PItem := ⟨ItemKind.notMatched, 1, 1⟩

/-- The `CompoundBlockOperator` projection onto the row-number column built
inline in `build_merge_into` (distributed unmatched path); the source gives
it exactly one input port and one output port. -/
def rowNumberProjectItem : PItem := ⟨ItemKind.rowNumberProject, 1, 1⟩

/-- Modelled from the spec: `create_dummy_item()` is a pass-through
placeholder with one input and one output. -/
def dummyItem : PItem := ⟨ItemKind.dummy, 1, 1⟩

/-- Modelled from the spec: `TransformResortAddOnWithoutSourceSchema`
(default-valued column fill), a one-input one-output transform. -/
def fillDefaultItem : PItem := ⟨ItemKind.fillDefault, 1, 1⟩

/-- Modelled from the spec: `TransformAddComputedColumns` (computed column
fill), a one-input one-output transform. -/
def fillComputedItem : PItem := ⟨ItemKind.fillComputed, 1, 1⟩

/-- Modelled from the spec: one clustering/sort transform lane added by
`FuseTable::cluster_gen_for_append_with_specified_len`. -/
def clusterSortItem : PItem := ⟨ItemKind.clusterSort, 1, 1⟩

/-- Modelled from the spec: the row-identifier aggregation mutator
(`FuseTable::rowid_aggregate_mutator`), a one-input one-output stage; the
parameter records the permit count of the I/O admission semaphore it is
given. -/
def rowIdAggregateItem (permits : Nat) : PItem := ⟨ItemKind.rowIdAggregate permits, 1, 1⟩

/-- Modelled from the spec: `TransformSerializeBlock`, a one-input
one-output serialization stage. -/
def serializeBlockItem : PItem := ⟨ItemKind.serializeBlock, 1, 1⟩

/-- Modelled from the spec: `TransformSerializeSegment`, a one-input
one-output serialization stage. -/
def serializeSegmentItem : PItem := ⟨ItemKind.serializeSegment, 1, 1⟩

/-- Modelled from the spec: `AccumulateRowNumber`, the row-number
accumulator stage, one input and one output. -/
def accumulateRowNumberItem : PItem := ⟨ItemKind.accumulateRowNumber, 1, 1⟩

/-- Modelled from the spec: `MergeIntoSplitProcessor`, the matched/unmatched
splitter, one input and two outputs (matched lane, not-matched lane); the
source sizes the splitter pipe as `output_len * 2`. -/
def mergeIntoSplitItem : PItem := ⟨ItemKind.mergeIntoSplit, 1, 2⟩

/-- Modelled from the spec: `TransformAddRowNumberColumnProcessor`, the
row-number tagging transform, one input and one output. -/
def addRowNumberItem (node_index : Nat) : PItem := ⟨ItemKind.addRowNumber node_index, 1, 1⟩

/-- Modelled from the spec: `RowNumberAndLogSplitProcessor`, one input, two
outputs ("output_port_row_number / output_port_log" in the source). -/
def rowNumberAndLogSplitItem : PItem := ⟨ItemKind.rowNumberAndLogSplit, 1, 2⟩

/-- Modelled from the spec: `DeduplicateRowNumber`, one input, one output. -/
def deduplicateRowNumberItem : PItem := ⟨ItemKind.deduplicateRowNumber, 1, 1⟩

/-- Modelled from the spec: `ExtractHashTableByRowNumber`, one input, one
output. -/
def extractHashTableItem : PItem := ⟨ItemKind.extractHashTable, 1, 1⟩

/-- One structural operation appended to the main pipeline.  `pipe` records
`Pipe::create(nIn, nOut, items)`; `resizePartialOne` and `reorderInputs`
additionally record the pipeline's output port count at the moment of the
call, so that structural claims can be stated about them. -/
inductive PipeOp where
  | pipe (nIn nOut : Nat) (items : List PItem)
  | tryResize (newSize : Nat)
  | resizePartialOne (lenAtCall : Nat) (ranges : List (List Nat))
  | reorderInputs (lenAtCall : Nat) (rules : List Nat)
deriving DecidableEq

/-- The pipe items carried by an operation (empty for the structural
resize/reorder operations, which create no processor items of their own). -/
def PipeOp.items : PipeOp → List PItem
  | PipeOp.pipe _ _ its => its
  | _ => []

/-- The pipeline state seen by the builder: current output port count plus
the ordered list of structural operations appended so far. -/
structure PB where
  output_len : Nat
  ops : List PipeOp
deriving DecidableEq

/-- Modelled from the spec: `Pipeline::add_pipe` appends a pipe; the
pipeline's output port count becomes the pipe's declared output count. -/
def PB.add_pipe (pb : PB) (nIn nOut : Nat) (items : List PItem) : PB :=
  ⟨nOut, pb.ops ++ [PipeOp.pipe nIn nOut items]⟩

/-- Modelled from the spec: `Pipeline::try_resize(n)` regroups all current
output ports into `n` output ports. -/
def PB.try_resize (pb : PB) (n : Nat) : PB :=
  ⟨n, pb.ops ++ [PipeOp.tryResize n]⟩

/-- Modelled from the spec: `Pipeline::resize_partial_one(ranges)` merges
each listed group of current output ports into one output port, so the new
output port count is the number of groups. -/
def PB.resizePartialOne (pb : PB) (ranges : List (List Nat)) : PB :=
  ⟨ranges.length, pb.ops ++ [PipeOp.resizePartialOne pb.output_len ranges]⟩

/-- Modelled from the spec: `Pipeline::reorder_inputs(rules)` relabels the
current output ports by the given permutation; the port count is
unchanged. -/
def PB.reorder_inputs (pb : PB) (rules : List Nat) : PB :=
  ⟨pb.output_len, pb.ops ++ [PipeOp.reorderInputs pb.output_len rules]⟩

/-- Modelled from the spec: `Pipeline::add_transform` adds one instance of a
one-input one-output transform per current output port, leaving the port
count unchanged. -/
def PB.add_transform (pb : PB) (k : ItemKind) : PB :=
  pb.add_pipe pb.output_len pb.output_len (List.replicate pb.output_len ⟨k, 1, 1⟩)

/-- The `get_output_len` closure of `build_merge_into`: total declared
output port count of a list of pipe items, accumulated left to right. -/
def get_output_len (pipe_items : List PItem) : Nat :=
  pipe_items.foldl (fun output_len item => output_len + item.nOut) 0

/-- Total declared input port count of a list of pipe items (the
`inputs.len()` that `TransformPipeBuilder::finalize` passes to
`Pipe::create`). -/
def get_input_len (pipe_items : List PItem) : Nat :=
  pipe_items.foldl (fun input_len item => input_len + item.nIn) 0

/-- Kind of a column of the target table, as far as the two schema
projections used by the builder distinguish them. -/
inductive ComputedKind where
  | plain
  | stored
  | virtualComputed
deriving DecidableEq

/-- A field of the target table's schema. -/
structure TableField where
  name : String
  kind : ComputedKind
deriving DecidableEq

/-- The target table's schema, reduced to what the builder inspects. -/
structure TableSchema where
  fields : List TableField
deriving DecidableEq

/-- Modelled from the spec: `TableSchema::remove_computed_fields` drops all
computed (stored and virtual) fields, yielding the default-column schema. -/
def TableSchema.remove_computed_fields (s : TableSchema) : TableSchema :=
  ⟨s.fields.filter (fun f => f.kind == ComputedKind.plain)⟩

/-- Modelled from the spec: `TableSchema::remove_virtual_computed_fields`
drops only virtual computed fields, yielding the computed-column schema. -/
def TableSchema.remove_virtual_computed_fields (s : TableSchema) : TableSchema :=
  ⟨s.fields.filter (fun f => !(f.kind == ComputedKind.virtualComputed))⟩

/-- The `default_schema != computed_schema` guard both builder functions use
to decide whether to add the computed-column fill stage (`DataSchema::from`
maps fields one-to-one, so comparing the filtered table schemas is the same
comparison). -/
def schema_differs (s : TableSchema) : Prop :=
  s.remove_computed_fields ≠ s.remove_virtual_computed_fields

instance (s : TableSchema) : Decidable (schema_differs s) := by
  unfold schema_differs; infer_instance

/-- The `(step, need_match, need_unmatch)` triple computed by the `match`
on `merge_type` at the top of `build_merge_into`. -/
def merge_step_flags : MergeIntoType → Nat × Bool × Bool
  | MergeIntoType.FullOperation => (2, true, true)
  | MergeIntoType.InsertOnly => (1, false, true)
  | MergeIntoType.MatechedOnly => (1, true, false)

/-- Number of iterations of Rust's `(0..len).step_by(step)` loop
(`step > 0`). -/
def stepByCount (len step : Nat) : Nat := (len + step - 1) / step

/-- The list of indices visited by Rust's `(0..len).step_by(step)`. -/
def stepIndices (len step : Nat) : List Nat :=
  (List.range (stepByCount len step)).map (fun i => i * step)

/-- The pipe items one iteration of the splitter loop of `build_merge_into`
pushes: a `MatchedSplitProcessor` when the matched branch is active, then
(when the unmatched branch is active) either the row-number projection
(distributed) or a `MergeIntoNotMatchedProcessor` (local). -/
def splitter_block (distributed need_match need_unmatch : Bool) : List PItem :=
  (if need_match then [matchedSplitItem] else []) ++
    (if need_unmatch then
      (if distributed then [rowNumberProjectItem] else [notMatchedItem])
     else [])

/-- The ranges built by the local complete-pipeline merge of update and
insert lanes: for each `idx` stepping by 3, the singleton row-id group
`[idx]` then the data group `[idx + 1, idx + 2]`. -/
def local_full_ranges (len : Nat) : List (List Nat) :=
  (stepIndices len 3).flatMap (fun idx => [[idx], [idx + 1, idx + 2]])

/-- The reorder rules interleaving two halves: `idx, idx + len / 2` for
`idx` in `0 .. len / 2`. -/
def shuffle_rules2 (len : Nat) : List Nat :=
  (List.range (len / 2)).flatMap (fun idx => [idx, idx + len / 2])

/-- The reorder rules interleaving three thirds: `idx, idx + len / 3,
idx + len / 3 * 2` for `idx` in `0 .. len / 3`. -/
def shuffle_rules3 (len : Nat) : List Nat :=
  (List.range (len / 3)).flatMap (fun idx => [idx, idx + len / 3, idx + len / 3 * 2])

/-- The ranges built by `PipelineBuilder::resize_row_id`: one fan-in group
of the first `n / step` ports, then `n / step` singleton groups, and (for
`step = 3`) one fan-in group of the last `n / step` ports. -/
def resize_row_id_ranges (n step : Nat) : List (List Nat) :=
  let vec := List.range (n / step)
  let ranges := vec :: (List.range (n / step)).map (fun idx => [idx + n / step])
  if step == 3 then
    ranges ++ [(List.range (n / step)).map (fun idx => idx + n / step * 2)]
  else ranges

/-- `PipelineBuilder::resize_row_id`: a `resize_partial_one` with the ranges
of `resize_row_id_ranges` at the current output port count. -/
def PB.resize_row_id (pb : PB) (step : Nat) : PB :=
  pb.resizePartialOne (resize_row_id_ranges pb.output_len step)

/-- The `add_builder_pipe` closure of `build_merge_into`: prepend a dummy
row-id pass-through item when the matched branch is active and, in
distributed mode, append a dummy row-number pass-through item when the
unmatched branch is active. -/
def add_builder_pipe (builder : List PItem)
    (distributed need_match need_unmatch : Bool) : List PItem :=
  if !distributed then
    (if need_match then [dummyItem] else []) ++ builder
  else
    ((if need_match then [dummyItem] else []) ++ builder) ++
      (if need_unmatch then [dummyItem] else [])

/-- Modelled from the spec: the pipe items added by
`FuseTable::cluster_gen_for_append_with_specified_len` (storage
collaborator).  Clustering consumes only the `mid_len` data lanes; the
leading lanes (row-id) and the `last_len` trailing lanes (row-number) are
kept as pass-through dummies, so the port count is preserved. -/
def cluster_gen_items (len mid_len last_len : Nat) : List PItem :=
  (List.replicate (len - mid_len - last_len) dummyItem ++
    List.replicate mid_len clusterSortItem) ++
    List.replicate last_len dummyItem

/-- `PipelineBuilder::build_merge_into_source`: only the `FullOperation`
variant adds the `MergeIntoSplitProcessor` splitter pipe, one item per
current output lane, declared as `output_len` inputs and `output_len * 2`
outputs. -/
def build_merge_into_source (merge_type : MergeIntoType) (pb : PB) : PB :=
  if merge_type = MergeIntoType.FullOperation then
    let output_len := pb.output_len
    pb.add_pipe output_len (output_len * 2) (List.replicate output_len mergeIntoSplitItem)
  else pb

/-- The error type returned by `build_add_row_number` on a missing cluster
node entry (`ErrorCode::NotFoundClusterNode` with its message). -/
inductive ErrorCode where
  | NotFoundClusterNode (msg : String)
deriving DecidableEq

/-- `PipelineBuilder::build_add_row_number`: looks the current node's local
id up in the plan's `cluster_index` map; on a missing entry it returns a
build-time error naming that id, touching the pipeline in no way; otherwise
it adds one `TransformAddRowNumberColumnProcessor` transform (the
`as u16` cast of the node index is the reduction modulo `2 ^ 16`). -/
def build_add_row_number (cluster_index : List (String × Nat)) (local_id : String)
    (pb : PB) : Except ErrorCode PB :=
  match cluster_index.lookup local_id with
  | none => Except.error (ErrorCode.NotFoundClusterNode
      ("can't find out " ++ local_id ++ " when build distributed merge into pipeline"))
  | some node_index =>
      Except.ok (pb.add_transform (ItemKind.addRowNumber (node_index % 65536)))

/-- `PipelineBuilder::build_merge_into_append_not_matched`: resize to one;
for `MatechedOnly` stop there, otherwise add the row-number/log split, the
deduplicate/extract/not-matched lanes (each padded by a dummy log lane),
the two column-fill stages (the computed one only when the schemas differ),
the clustering stage, block and segment serialization, and a final resize
to one. -/
def build_merge_into_append_not_matched (merge_type : MergeIntoType)
    (sch : TableSchema) (pb : PB) : PB :=
  let pb := pb.try_resize 1
  if merge_type = MergeIntoType.MatechedOnly then pb
  else
    let pb := pb.add_pipe 1 2 [rowNumberAndLogSplitItem]
    let pb := pb.add_pipe 2 2 [deduplicateRowNumberItem, dummyItem]
    let pb := pb.add_pipe 2 2 [extractHashTableItem, dummyItem]
    let pb := pb.add_pipe 2 2 [notMatchedItem, dummyItem]
    let pb := pb.add_pipe 2 2 [fillDefaultItem, dummyItem]
    let pb :=
      if schema_differs sch then pb.add_pipe 2 2 [fillComputedItem, dummyItem]
      else pb
    let pb := pb.add_pipe 2 2 (cluster_gen_items 2 1 1)
    let pb := pb.add_pipe 2 2 [serializeBlockItem, dummyItem]
    let pb := pb.add_pipe 2 2 [serializeSegmentItem, dummyItem]
    pb.try_resize 1

/-- `PipelineBuilder::build_merge_into`, transcribed stage by stage as a
pure function of the merge variant, the distribution flag, the configured
`max_threads` setting, the target table schema and the entry output port
count (the state after `build_pipeline(&input)`). -/
def build_merge_into (merge_type : MergeIntoType) (distributed : Bool)
    (max_threads : Nat) (sch : TableSchema) (entry_len : Nat) : PB :=
  let pb : PB := ⟨entry_len, []⟩
  let flags := merge_step_flags merge_type
  let step := flags.1
  let need_match := flags.2.1
  let need_unmatch := flags.2.2
  -- receive matched data and not matched data parallelly
  let pipe_items :=
    (List.replicate (stepByCount pb.output_len step)
      (splitter_block distributed need_match need_unmatch)).flatten
  let pb := pb.add_pipe pb.output_len (get_output_len pipe_items) pipe_items
  -- shuffle outputs and resize row_id
  let pb :=
    if !distributed then
      let pb :=
        if need_match && need_unmatch then
          pb.resizePartialOne (local_full_ranges pb.output_len)
        else pb
      if need_match then
        let pb := pb.reorder_inputs (shuffle_rules2 pb.output_len)
        pb.resize_row_id 2
      else pb
    else
      if need_match && need_unmatch then
        let pb := pb.reorder_inputs (shuffle_rules3 pb.output_len)
        pb.resize_row_id 3
      else if need_match && !need_unmatch then
        let pb := pb.reorder_inputs (shuffle_rules2 pb.output_len)
        pb.resize_row_id 2
      else
        pb.try_resize 1
  let fill_default_len :=
    if !distributed then
      if need_match then pb.output_len - 1 else pb.output_len
    else if need_match && need_unmatch then pb.output_len - 2
    else if need_match && !need_unmatch then pb.output_len - 1
    else 0
  -- fill default columns
  let fill_pipe :=
    add_builder_pipe (List.replicate fill_default_len fillDefaultItem)
      distributed need_match need_unmatch
  let pb := pb.add_pipe (get_input_len fill_pipe) (get_output_len fill_pipe) fill_pipe
  -- fill computed columns
  let pb :=
    if schema_differs sch then
      let fill_pipe :=
        add_builder_pipe (List.replicate fill_default_len fillComputedItem)
          distributed need_match need_unmatch
      pb.add_pipe (get_input_len fill_pipe) (get_output_len fill_pipe) fill_pipe
    else pb
  -- cluster sort, sized by the lane-count split handed to the storage layer
  let output_lens := pb.output_len
  let lane_split :=
    if !distributed then
      ((if need_match then output_lens - 1 else output_lens), 0)
    else if need_match && need_unmatch then (output_lens - 2, 1)
    else (output_lens - 1, 0)
  let mid_len := lane_split.1
  let last_len := lane_split.2
  let pb := pb.add_pipe output_lens output_lens (cluster_gen_items output_lens mid_len last_len)
  let serialize_len := mid_len
  -- row-id aggregation and block serialization
  let pipe_items :=
    ((if need_match then [rowIdAggregateItem max_threads] else []) ++
      List.replicate serialize_len serializeBlockItem) ++
      (if distributed && need_unmatch then [dummyItem] else [])
  let pb := pb.add_pipe pb.output_len (get_output_len pipe_items) pipe_items
  -- resize block ports
  let offset := if need_match then 1 else 0
  let ranges :=
    ((if need_match then [[0]] else []) ++
      (if 0 < serialize_len then [(List.range serialize_len).map (fun idx => idx + offset)]
       else [])) ++
      (if distributed && need_unmatch then [[pb.output_len - 1]] else [])
  let pb := pb.resizePartialOne ranges
  -- segment serialization into the canonical output layout
  let pipe_items :=
    if !distributed then
      (if need_match then [dummyItem] else []) ++ [serializeSegmentItem]
    else
      ((if need_match then [dummyItem] else []) ++
        (if 0 < serialize_len then [serializeSegmentItem] else [])) ++
        (if need_unmatch then [dummyItem] else [])
  let pb := pb.add_pipe pb.output_len (get_output_len pipe_items) pipe_items
  -- accumulate row_number
  if distributed && need_unmatch then
    let pipe_items :=
      if need_match then [dummyItem, dummyItem, accumulateRowNumberItem]
      else [accumulateRowNumberItem]
    pb.add_pipe pb.output_len (get_output_len pipe_items) pipe_items
  else pb

/-- Entry output port count of `build_merge_into` as a function of the
probe-side parallelism `m`: for `FullOperation` the upstream
`build_merge_into_source` has doubled the lane count, so the entry count is
even. -/
def merge_entry_len (merge_type : MergeIntoType) (m : Nat) : Nat :=
  if merge_type = MergeIntoType.FullOperation then 2 * m else m

/-- Canonical final output-port layout of `build_merge_into`, as documented
by the source's closing comment: in local mode 2 ports (both `MutationLogs`)
when the matched branch is active and 1 port for insert-only; in distributed
mode 3 ports (`MutationLogs`, `MutationLogs`, row numbers) for the full
operation, 2 for matched-only and 1 (row numbers) for insert-only.  `m` is
the probe-side parallelism. -/
def merge_canonical_ports (max_threads : Nat) (sch : TableSchema) (m : Nat) : Prop :=
  (build_merge_into MergeIntoType.FullOperation false max_threads sch (2 * m)).output_len = 2 ∧
  (build_merge_into MergeIntoType.MatechedOnly false max_threads sch m).output_len = 2 ∧
  (build_merge_into MergeIntoType.InsertOnly false max_threads sch m).output_len = 1 ∧
  (build_merge_into MergeIntoType.FullOperation true max_threads sch (2 * m)).output_len = 3 ∧
  (build_merge_into MergeIntoType.MatechedOnly true max_threads sch m).output_len = 2 ∧
  (build_merge_into MergeIntoType.InsertOnly true max_threads sch m).output_len = 1

/-- No operation of the pipeline carries an unmatched-insert-path stage: no
`MergeIntoNotMatchedProcessor`, no row-number projection item and no
`AccumulateRowNumber` item. -/
def unmatched_stage_free (pb : PB) : Prop :=
  ∀ op ∈ pb.ops, ∀ it ∈ op.items,
    it.kind ≠ ItemKind.notMatched ∧ it.kind ≠ ItemKind.rowNumberProject ∧
      it.kind ≠ ItemKind.accumulateRowNumber

/-- No operation of the given list carries a `TransformAddComputedColumns`
item. -/
def computed_fill_free (ops : List PipeOp) : Prop :=
  ∀ op ∈ ops, ∀ it ∈ op.items, it.kind ≠ ItemKind.fillComputed

/-- Number of structural operations `build_merge_into` appends when the
computed-column fill stage is skipped (`default_schema = computed_schema`);
when the schemas differ exactly one more operation is appended. -/
def merge_ops_base (merge_type : MergeIntoType) (distributed : Bool) : Nat :=
  match merge_type, distributed with
  | MergeIntoType.FullOperation, false => 9
  | MergeIntoType.MatechedOnly, false => 8
  | MergeIntoType.InsertOnly, false => 6
  | MergeIntoType.FullOperation, true => 9
  | MergeIntoType.MatechedOnly, true => 8
  | MergeIntoType.InsertOnly, true => 8

/-- The computed-column fill stage is inserted if and only if the
`default_schema != computed_schema` guard holds, it is skipped entirely
when the schemas are equal, and skipping it leaves the final port layout
unchanged; in `build_merge_into_append_not_matched` the matched-only
variant stops right after the resize to one, before either column-fill
stage. -/
def computed_stage_guarded (merge_type : MergeIntoType) (distributed : Bool)
    (max_threads m : Nat) (sch : TableSchema) (pb : PB) : Prop :=
  ((build_merge_into merge_type distributed max_threads sch
      (merge_entry_len merge_type m)).ops.length =
    merge_ops_base merge_type distributed + (if schema_differs sch then 1 else 0)) ∧
  (¬ schema_differs sch →
    computed_fill_free (build_merge_into merge_type distributed max_threads sch
      (merge_entry_len merge_type m)).ops) ∧
  ((build_merge_into merge_type distributed max_threads sch
      (merge_entry_len merge_type m)).output_len =
    (build_merge_into merge_type distributed max_threads ⟨[]⟩
      (merge_entry_len merge_type m)).output_len) ∧
  (merge_type ≠ MergeIntoType.MatechedOnly →
    (build_merge_into_append_not_matched merge_type sch pb).ops.length =
      pb.ops.length + 10 + (if schema_differs sch then 1 else 0)) ∧
  (¬ schema_differs sch →
    computed_fill_free
      ((build_merge_into_append_not_matched merge_type sch pb).ops.drop pb.ops.length)) ∧
  (merge_type = MergeIntoType.MatechedOnly →
    build_merge_into_append_not_matched merge_type sch pb = pb.try_resize 1)

/-- Every reorder operation recorded in the pipeline carries a rule vector
that is a permutation of the port indices `0 .. len` at the moment of the
call. -/
def reorders_are_permutations (pb : PB) : Prop :=
  ∀ len rules, PipeOp.reorderInputs len rules ∈ pb.ops → rules.Perm (List.range len)

/-- Some operation carries the row-identifier aggregation mutator with
exactly `max_threads` semaphore permits, and every aggregation mutator in
the pipeline carries exactly that permit count. -/
def rowid_semaphore_ok (pb : PB) (max_threads : Nat) : Prop :=
  (∃ op ∈ pb.ops, ∃ it ∈ op.items, it.kind = ItemKind.rowIdAggregate max_threads) ∧
  (∀ op ∈ pb.ops, ∀ it ∈ op.items, ∀ p, it.kind = ItemKind.rowIdAggregate p →
    p = max_threads)

/-- The item list of a column-fill stage with `f` fill transforms of the
given item, as assembled by `add_builder_pipe`. -/
def fill_stage_items (it : PItem) (distributed need_match need_unmatch : Bool)
    (f : Nat) : List PItem :=
  add_builder_pipe (List.replicate f it) distributed need_match need_unmatch

/-- The pipe operation of a column-fill stage (the `finalize` of the
transform pipe builder declares the summed input and output port counts). -/
def fill_stage_pipe (it : PItem) (distributed need_match need_unmatch : Bool)
    (f : Nat) : PipeOp :=
  PipeOp.pipe (get_input_len (fill_stage_items it distributed need_match need_unmatch f))
    (get_output_len (fill_stage_items it distributed need_match need_unmatch f))
    (fill_stage_items it distributed need_match need_unmatch f)

/-- The column-fill stages of the pipeline have the canonical layout: the
default-fill stage is present; every operation carrying a fill item is one
of the two fill stages with exactly `f` fill transforms; and the stage has
exactly `ports` items — one per pipeline output port — arranged as one
prepended dummy when the matched branch is active, then the fill
transforms, then one appended dummy when distributed with the unmatched
branch active. -/
def fill_pipes_ok (pb : PB) (distributed need_match need_unmatch : Bool)
    (f ports : Nat) : Prop :=
  fill_stage_pipe fillDefaultItem distributed need_match need_unmatch f ∈ pb.ops ∧
  (∀ op ∈ pb.ops,
    (∃ it ∈ op.items, it.kind = ItemKind.fillDefault ∨ it.kind = ItemKind.fillComputed) →
    (op = fill_stage_pipe fillDefaultItem distributed need_match need_unmatch f ∨
     op = fill_stage_pipe fillComputedItem distributed need_match need_unmatch f)) ∧
  (fill_stage_items fillDefaultItem distributed need_match need_unmatch f).length = ports ∧
  fill_stage_items fillDefaultItem distributed need_match need_unmatch f =
    ((if need_match then [dummyItem] else []) ++ List.replicate f fillDefaultItem) ++
      (if distributed && need_unmatch then [dummyItem] else [])

/-- The canonical column-fill layouts of all six
`(MergeVariant, DistributionMode)` combinations. -/
def fill_stage_layouts (max_threads m : Nat) (sch : TableSchema) : Prop :=
  fill_pipes_ok (build_merge_into MergeIntoType.FullOperation false max_threads sch (2 * m))
    false true true m (1 + m) ∧
  fill_pipes_ok (build_merge_into MergeIntoType.MatechedOnly false max_threads sch m)
    false true false m (1 + m) ∧
  fill_pipes_ok (build_merge_into MergeIntoType.InsertOnly false max_threads sch m)
    false false true m m ∧
  fill_pipes_ok (build_merge_into MergeIntoType.FullOperation true max_threads sch (2 * m))
    true true true m (1 + (m + 1)) ∧
  fill_pipes_ok (build_merge_into MergeIntoType.MatechedOnly true max_threads sch m)
    true true false m (1 + m) ∧
  fill_pipes_ok (build_merge_into MergeIntoType.InsertOnly true max_threads sch m)
    true false true 0 1

end MergeDemo


namespace MergeDemo

theorem get_output_len_aux (l : List PItem) (a : Nat) :
    l.foldl (fun s it => s + it.nOut) a = a + (l.map PItem.nOut).sum := by
  induction l generalizing a with
  | nil => simp
  | cons x t ih => simp [List.foldl_cons, ih]; omega

theorem get_input_len_aux (l : List PItem) (a : Nat) :
    l.foldl (fun s it => s + it.nIn) a = a + (l.map PItem.nIn).sum := by
  induction l generalizing a with
  | nil => simp
  | cons x t ih => simp [List.foldl_cons, ih]; omega

@[simp] theorem get_output_len_nil : get_output_len [] = 0 := rfl

@[simp] theorem get_output_len_cons (x : PItem) (l : List PItem) :
    get_output_len (x :: l) = x.nOut + get_output_len l := by
  simp [get_output_len, get_output_len_aux]

@[simp] theorem get_output_len_append (a b : List PItem) :
    get_output_len (a ++ b) = get_output_len a + get_output_len b := by
  simp [get_output_len, get_output_len_aux]

@[simp] theorem get_output_len_replicate (n : Nat) (x : PItem) :
    get_output_len (List.replicate n x) = n * x.nOut := by
  simp [get_output_len, get_output_len_aux, List.map_replicate, mul_comm]

@[simp] theorem get_output_len_flatten_replicate (n : Nat) (l : List PItem) :
    get_output_len ((List.replicate n l).flatten) = n * get_output_len l := by
  induction n with
  | zero => simp
  | succ m ih => simp [List.replicate_succ, ih]; ring

@[simp] theorem get_input_len_nil : get_input_len [] = 0 := rfl

@[simp] theorem get_input_len_cons (x : PItem) (l : List PItem) :
    get_input_len (x :: l) = x.nIn + get_input_len l := by
  simp [get_input_len, get_input_len_aux]

@[simp] theorem get_input_len_append (a b : List PItem) :
    get_input_len (a ++ b) = get_input_len a + get_input_len b := by
  simp [get_input_len, get_input_len_aux]

@[simp] theorem get_input_len_replicate (n : Nat) (x : PItem) :
    get_input_len (List.replicate n x) = n * x.nIn := by
  simp [get_input_len, get_input_len_aux, List.map_replicate, mul_comm]

@[simp] theorem matchedSplitItem_nOut : matchedSplitItem.nOut = 2 := rfl
@[simp] theorem matchedSplitItem_nIn : matchedSplitItem.nIn = 1 := rfl
@[simp] theorem notMatchedItem_nOut : notMatchedItem.nOut = 1 := rfl
@[simp] theorem notMatchedItem_nIn : notMatchedItem.nIn = 1 := rfl
@[simp] theorem rowNumberProjectItem_nOut : rowNumberProjectItem.nOut = 1 := rfl
@[simp] theorem rowNumberProjectItem_nIn : rowNumberProjectItem.nIn = 1 := rfl
@[simp] theorem dummyItem_nOut : dummyItem.nOut = 1 := rfl
@[simp] theorem dummyItem_nIn : dummyItem.nIn = 1 := rfl
@[simp] theorem fillDefaultItem_nOut : fillDefaultItem.nOut = 1 := rfl
@[simp] theorem fillDefaultItem_nIn : fillDefaultItem.nIn = 1 := rfl
@[simp] theorem fillComputedItem_nOut : fillComputedItem.nOut = 1 := rfl
@[simp] theorem fillComputedItem_nIn : fillComputedItem.nIn = 1 := rfl
@[simp] theorem clusterSortItem_nOut : clusterSortItem.nOut = 1 := rfl
@[simp] theorem clusterSortItem_nIn : clusterSortItem.nIn = 1 := rfl
@[simp] theorem rowIdAggregateItem_nOut (p : Nat) : (rowIdAggregateItem p).nOut = 1 := rfl
@[simp] theorem rowIdAggregateItem_nIn (p : Nat) : (rowIdAggregateItem p).nIn = 1 := rfl
@[simp] theorem serializeBlockItem_nOut : serializeBlockItem.nOut = 1 := rfl
@[simp] theorem serializeBlockItem_nIn : serializeBlockItem.nIn = 1 := rfl
@[simp] theorem serializeSegmentItem_nOut : serializeSegmentItem.nOut = 1 := rfl
@[simp] theorem serializeSegmentItem_nIn : serializeSegmentItem.nIn = 1 := rfl
@[simp] theorem accumulateRowNumberItem_nOut : accumulateRowNumberItem.nOut = 1 := rfl
@[simp] theorem accumulateRowNumberItem_nIn : accumulateRowNumberItem.nIn = 1 := rfl
@[simp] theorem mergeIntoSplitItem_nOut : mergeIntoSplitItem.nOut = 2 := rfl
@[simp] theorem mergeIntoSplitItem_nIn : mergeIntoSplitItem.nIn = 1 := rfl

theorem stepByCount_one (n : Nat) : stepByCount n 1 = n := by unfold stepByCount; omega
theorem stepByCount_two_mul (k : Nat) : stepByCount (2 * k) 2 = k := by unfold stepByCount; omega
theorem stepByCount_mul_three (k : Nat) : stepByCount (k * 3) 3 = k := by unfold stepByCount; omega

theorem length_flatMap_pair {α β : Type} (l : List α) (f g : α → β) :
    (l.flatMap (fun x => [f x, g x])).length = 2 * l.length := by
  induction l with
  | nil => simp
  | cons a t ih => simp [List.flatMap_cons, ih]; omega

@[simp] theorem local_full_ranges_length (n : Nat) :
    (local_full_ranges n).length = 2 * stepByCount n 3 := by
  unfold local_full_ranges stepIndices
  rw [length_flatMap_pair (f := fun idx => [idx]) (g := fun idx => [idx + 1, idx + 2])]
  simp

@[simp] theorem resize_row_id_ranges_length_two (n : Nat) :
    (resize_row_id_ranges n 2).length = n / 2 + 1 := by
  simp [resize_row_id_ranges]

@[simp] theorem resize_row_id_ranges_length_three (n : Nat) :
    (resize_row_id_ranges n 3).length = n / 3 + 2 := by
  simp [resize_row_id_ranges]

theorem trace_full_local (mt : Nat) (sch : TableSchema) (k : Nat) (hk : 0 < k) :
    build_merge_into MergeIntoType.FullOperation false mt sch (2 * k) =
      ⟨2,
        [PipeOp.pipe (2 * k) (k * 3) ((List.replicate k [matchedSplitItem, notMatchedItem]).flatten),
         PipeOp.resizePartialOne (k * 3) (local_full_ranges (k * 3)),
         PipeOp.reorderInputs (2 * k) (shuffle_rules2 (2 * k)),
         PipeOp.resizePartialOne (2 * k) (resize_row_id_ranges (2 * k) 2),
         PipeOp.pipe (1 + k) (1 + k) (dummyItem :: List.replicate k fillDefaultItem)] ++
        (if schema_differs sch then
          [PipeOp.pipe (1 + k) (1 + k) (dummyItem :: List.replicate k fillComputedItem)] else []) ++
        [PipeOp.pipe (1 + k) (1 + k) (dummyItem :: List.replicate k clusterSortItem),
         PipeOp.pipe (1 + k) (1 + k) (rowIdAggregateItem mt :: List.replicate k serializeBlockItem),
         PipeOp.resizePartialOne (1 + k) [[0], (List.range k).map (fun idx => idx + 1)],
         PipeOp.pipe 2 2 [dummyItem, serializeSegmentItem]]⟩ := by
  by_cases hsch : schema_differs sch <;>
    simp [hsch, hk, build_merge_into, merge_step_flags, splitter_block,
      PB.add_pipe, PB.try_resize, PB.resizePartialOne, PB.reorder_inputs, PB.resize_row_id,
      add_builder_pipe, cluster_gen_items, stepByCount_two_mul, stepByCount_mul_three]


theorem mul_two_div_two (m : Nat) : m * 2 / 2 = m := by omega
theorem mul_three_div_three (m : Nat) : m * 3 / 3 = m := by omega

theorem trace_matched_local (mt : Nat) (sch : TableSchema) (m : Nat) (hm : 0 < m) :
    build_merge_into MergeIntoType.MatechedOnly false mt sch m =
      ⟨2,
        [PipeOp.pipe m (m * 2) ((List.replicate m [matchedSplitItem]).flatten),
         PipeOp.reorderInputs (m * 2) (shuffle_rules2 (m * 2)),
         PipeOp.resizePartialOne (m * 2) (resize_row_id_ranges (m * 2) 2),
         PipeOp.pipe (1 + m) (1 + m) (dummyItem :: List.replicate m fillDefaultItem)] ++
        (if schema_differs sch then
          [PipeOp.pipe (1 + m) (1 + m) (dummyItem :: List.replicate m fillComputedItem)] else []) ++
        [PipeOp.pipe (1 + m) (1 + m) (dummyItem :: List.replicate m clusterSortItem),
         PipeOp.pipe (1 + m) (1 + m) (rowIdAggregateItem mt :: List.replicate m serializeBlockItem),
         PipeOp.resizePartialOne (1 + m) [[0], (List.range m).map (fun idx => idx + 1)],
         PipeOp.pipe 2 2 [dummyItem, serializeSegmentItem]]⟩ := by
  by_cases hsch : schema_differs sch <;>
    simp [hsch, hm, build_merge_into, merge_step_flags, splitter_block,
      PB.add_pipe, PB.try_resize, PB.resizePartialOne, PB.reorder_inputs, PB.resize_row_id,
      add_builder_pipe, cluster_gen_items, stepByCount_one, mul_two_div_two]

theorem trace_insert_local (mt : Nat) (sch : TableSchema) (m : Nat) (hm : 0 < m) :
    build_merge_into MergeIntoType.InsertOnly false mt sch m =
      ⟨1,
        [PipeOp.pipe m m ((List.replicate m [notMatchedItem]).flatten),
         PipeOp.pipe m m (List.replicate m fillDefaultItem)] ++
        (if schema_differs sch then
          [PipeOp.pipe m m (List.replicate m fillComputedItem)] else []) ++
        [PipeOp.pipe m m (List.replicate m clusterSortItem),
         PipeOp.pipe m m (List.replicate m serializeBlockItem),
         PipeOp.resizePartialOne m [List.range m],
         PipeOp.pipe 1 1 [serializeSegmentItem]]⟩ := by
  by_cases hsch : schema_differs sch <;>
    simp [hsch, hm, build_merge_into, merge_step_flags, splitter_block,
      PB.add_pipe, PB.try_resize, PB.resizePartialOne, PB.reorder_inputs, PB.resize_row_id,
      add_builder_pipe, cluster_gen_items, stepByCount_one]

theorem trace_full_dist (mt : Nat) (sch : TableSchema) (k : Nat) (hk : 0 < k) :
    build_merge_into MergeIntoType.FullOperation true mt sch (2 * k) =
      ⟨3,
        [PipeOp.pipe (2 * k) (k * 3) ((List.replicate k [matchedSplitItem, rowNumberProjectItem]).flatten),
         PipeOp.reorderInputs (k * 3) (shuffle_rules3 (k * 3)),
         PipeOp.resizePartialOne (k * 3) (resize_row_id_ranges (k * 3) 3),
         PipeOp.pipe (1 + (k + 1)) (1 + (k + 1))
           (dummyItem :: (List.replicate k fillDefaultItem ++ [dummyItem]))] ++
        (if schema_differs sch then
          [PipeOp.pipe (1 + (k + 1)) (1 + (k + 1))
            (dummyItem :: (List.replicate k fillComputedItem ++ [dummyItem]))] else []) ++
        [PipeOp.pipe (1 + (k + 1)) (1 + (k + 1))
           (dummyItem :: (List.replicate k clusterSortItem ++ [dummyItem])),
         PipeOp.pipe (1 + (k + 1)) (1 + (k + 1))
           (rowIdAggregateItem mt :: (List.replicate k serializeBlockItem ++ [dummyItem])),
         PipeOp.resizePartialOne (1 + (k + 1)) [[0], (List.range k).map (fun idx => idx + 1), [k + 1]],
         PipeOp.pipe 3 3 [dummyItem, serializeSegmentItem, dummyItem],
         PipeOp.pipe 3 3 [dummyItem, dummyItem, accumulateRowNumberItem]]⟩ := by
  have e1 : 1 + (k + 1) - 2 = k := by omega
  have e2 : 1 + (k + 1) - k - 1 = 1 := by omega
  have e3 : 2 < 1 + (k + 1) := by omega
  by_cases hsch : schema_differs sch <;>
    simp [hsch, hk, e1, e2, e3, build_merge_into, merge_step_flags, splitter_block,
      PB.add_pipe, PB.try_resize, PB.resizePartialOne, PB.reorder_inputs, PB.resize_row_id,
      add_builder_pipe, cluster_gen_items, stepByCount_two_mul, mul_three_div_three]

theorem trace_matched_dist (mt : Nat) (sch : TableSchema) (m : Nat) (hm : 0 < m) :
    build_merge_into MergeIntoType.MatechedOnly true mt sch m =
      ⟨2,
        [PipeOp.pipe m (m * 2) ((List.replicate m [matchedSplitItem]).flatten),
         PipeOp.reorderInputs (m * 2) (shuffle_rules2 (m * 2)),
         PipeOp.resizePartialOne (m * 2) (resize_row_id_ranges (m * 2) 2),
         PipeOp.pipe (1 + m) (1 + m) (dummyItem :: List.replicate m fillDefaultItem)] ++
        (if schema_differs sch then
          [PipeOp.pipe (1 + m) (1 + m) (dummyItem :: List.replicate m fillComputedItem)] else []) ++
        [PipeOp.pipe (1 + m) (1 + m) (dummyItem :: List.replicate m clusterSortItem),
         PipeOp.pipe (1 + m) (1 + m) (rowIdAggregateItem mt :: List.replicate m serializeBlockItem),
         PipeOp.resizePartialOne (1 + m) [[0], (List.range m).map (fun idx => idx + 1)],
         PipeOp.pipe 2 2 [dummyItem, serializeSegmentItem]]⟩ := by
  by_cases hsch : schema_differs sch <;>
    simp [hsch, hm, build_merge_into, merge_step_flags, splitter_block,
      PB.add_pipe, PB.try_resize, PB.resizePartialOne, PB.reorder_inputs, PB.resize_row_id,
      add_builder_pipe, cluster_gen_items, stepByCount_one, mul_two_div_two]

theorem trace_insert_dist (mt : Nat) (sch : TableSchema) (m : Nat) :
    build_merge_into MergeIntoType.InsertOnly true mt sch m =
      ⟨1,
        [PipeOp.pipe m m ((List.replicate m [rowNumberProjectItem]).flatten),
         PipeOp.tryResize 1,
         PipeOp.pipe 1 1 [dummyItem]] ++
        (if schema_differs sch then [PipeOp.pipe 1 1 [dummyItem]] else []) ++
        [PipeOp.pipe 1 1 [dummyItem],
         PipeOp.pipe 1 1 [dummyItem],
         PipeOp.resizePartialOne 1 [[0]],
         PipeOp.pipe 1 1 [dummyItem],
         PipeOp.pipe 1 1 [accumulateRowNumberItem]]⟩ := by
  by_cases hsch : schema_differs sch <;>
    simp [hsch, build_merge_into, merge_step_flags, splitter_block,
      PB.add_pipe, PB.try_resize, PB.resizePartialOne, PB.reorder_inputs, PB.resize_row_id,
      add_builder_pipe, cluster_gen_items, stepByCount_one]



theorem flatMap_pair_perm {α β : Type} (l : List α) (f g : α → β) :
    (l.flatMap (fun x => [f x, g x])).Perm (l.map f ++ l.map g) := by
  induction l with
  | nil => simp
  | cons a t ih =>
      simp only [List.flatMap_cons, List.map_cons, List.cons_append]
      exact (((ih.cons (g a)).trans List.perm_middle.symm).cons (f a))

theorem flatMap_triple_perm {α β : Type} (l : List α) (f g h : α → β) :
    (l.flatMap (fun x => [f x, g x, h x])).Perm ((l.map f ++ l.map g) ++ l.map h) := by
  induction l with
  | nil => simp
  | cons a t ih =>
      simp only [List.flatMap_cons, List.map_cons, List.cons_append]
      refine List.Perm.cons (f a) ?_
      have step1 : (h a :: t.flatMap (fun x => [f x, g x, h x])).Perm
          (h a :: ((t.map f ++ t.map g) ++ t.map h)) := ih.cons (h a)
      have step2 : (h a :: ((t.map f ++ t.map g) ++ t.map h)).Perm
          ((t.map f ++ t.map g) ++ h a :: t.map h) := List.perm_middle.symm
      have step3 : (g a :: ((t.map f ++ t.map g) ++ h a :: t.map h)).Perm
          ((t.map f ++ g a :: t.map g) ++ h a :: t.map h) := by
        have base : (g a :: (t.map f ++ (t.map g ++ h a :: t.map h))).Perm
            (t.map f ++ g a :: (t.map g ++ h a :: t.map h)) := List.perm_middle.symm
        simpa [List.append_assoc] using base
      exact (((step1.trans step2).cons (g a)).trans step3)

theorem shuffle_rules2_perm (n : Nat) (hd : 2 ∣ n) :
    (shuffle_rules2 n).Perm (List.range n) := by
  obtain ⟨k, rfl⟩ := hd
  unfold shuffle_rules2
  have h2 : 2 * k / 2 = k := by omega
  rw [h2]
  refine ((flatMap_pair_perm (List.range k) (fun idx => idx) (fun idx => idx + k)).trans ?_)
  rw [List.map_id', two_mul, List.range_add]
  have hm : (List.range k).map (fun idx => idx + k) = (List.range k).map (fun x => k + x) :=
    List.map_congr_left (fun a _ => by omega)
  rw [hm]

theorem shuffle_rules3_perm (n : Nat) (hd : 3 ∣ n) :
    (shuffle_rules3 n).Perm (List.range n) := by
  obtain ⟨k, rfl⟩ := hd
  unfold shuffle_rules3
  have h3 : 3 * k / 3 = k := by omega
  rw [h3]
  refine ((flatMap_triple_perm (List.range k)
    (fun idx => idx) (fun idx => idx + k) (fun idx => idx + k * 2)).trans ?_)
  rw [List.map_id']
  have hsplit : 3 * k = k + (k + k) := by ring
  rw [hsplit, List.range_add, List.range_add, List.map_append, List.map_map]
  have hm1 : (List.range k).map (fun idx => idx + k) = (List.range k).map (fun x => k + x) :=
    List.map_congr_left (fun a _ => by omega)
  have hm2 : (List.range k).map (fun idx => idx + k * 2) =
      (List.range k).map ((fun x => k + x) ∘ fun x => k + x) :=
    List.map_congr_left (fun a _ => by simp only [Function.comp_apply]; omega)
  rw [hm1, hm2, List.append_assoc]

theorem map_singleton_flatten {α β : Type} (l : List α) (f : α → β) :
    (l.map (fun x => [f x])).flatten = l.map f := by
  induction l with
  | nil => simp
  | cons a t ih => simp [ih]

theorem resize_row_id_ranges_flatten (n step : Nat) (h : step = 2 ∨ step = 3) (hd : step ∣ n) :
    (resize_row_id_ranges n step).flatten = List.range n := by
  rcases h with h | h <;> subst h <;> obtain ⟨k, rfl⟩ := hd
  · have h2 : 2 * k / 2 = k := by omega
    simp only [resize_row_id_ranges, h2]
    simp only [show ((2 == 3) = false) from rfl, Bool.false_eq_true, if_false,
      List.flatten_cons, map_singleton_flatten]
    rw [two_mul, List.range_add]
    congr 1
    exact List.map_congr_left (fun a _ => by omega)
  · have h3 : 3 * k / 3 = k := by omega
    simp only [resize_row_id_ranges, h3]
    simp only [show ((3 == 3) = true) from rfl, if_true, List.flatten_append,
      List.flatten_cons, map_singleton_flatten, List.flatten_nil]
    have hsplit : 3 * k = k + (k + k) := by ring
    rw [hsplit, List.range_add, List.range_add, List.map_append, List.map_map]
    simp only [List.append_nil]
    rw [List.append_assoc]
    congr 1
    congr 1
    · exact List.map_congr_left (fun a _ => by omega)
    · exact List.map_congr_left (fun a _ => by simp only [Function.comp_apply]; omega)

theorem mem_flatten_replicate_iff {α : Type} {n : Nat} {l : List α} {x : α} :
    x ∈ (List.replicate n l).flatten ↔ 0 < n ∧ x ∈ l := by
  induction n with
  | zero => simp
  | succ m ih =>
      rw [List.replicate_succ, List.flatten_cons]
      constructor
      · intro h
        rcases List.mem_append.mp h with h1 | h1
        · exact ⟨Nat.succ_pos m, h1⟩
        · exact ⟨Nat.succ_pos m, (ih.mp h1).2⟩
      · intro h
        exact List.mem_append.mpr (Or.inl h.2)

theorem mem_replicate_pos {α : Type} {n : Nat} (hn : 0 < n) (a x : α) :
    x ∈ List.replicate n a ↔ x = a := by
  rw [List.mem_replicate]
  constructor
  · exact fun h => h.2
  · exact fun h => ⟨by omega, h⟩

theorem mem_flatten_replicate_pos {α : Type} {n : Nat} (hn : 0 < n) (l : List α) (x : α) :
    x ∈ (List.replicate n l).flatten ↔ x ∈ l := by
  rw [mem_flatten_replicate_iff]
  exact ⟨fun h => h.2, fun h => ⟨hn, h⟩⟩

end MergeDemo

namespace MergeDemo

theorem matched_dist_eq_local (mt : Nat) (sch : TableSchema) (m : Nat) (hm : 0 < m) :
    build_merge_into MergeIntoType.MatechedOnly true mt sch m =
      build_merge_into MergeIntoType.MatechedOnly false mt sch m := by
  rw [trace_matched_local mt sch m hm, trace_matched_dist mt sch m hm]

/-- C1 (counterexample): the claim that the pipeline built by
`build_merge_into` ends with exactly one output port in local mode fails
already for the local `FullOperation` pipeline with two entry lanes, which
ends with two output ports (both `MutationLogs`, as the source's closing
comment documents). -/
theorem c1_counterexample_local_single_port :
    (build_merge_into MergeIntoType.FullOperation false 1 ⟨[]⟩ 2).output_len = 2 ∧
    (build_merge_into MergeIntoType.FullOperation false 1 ⟨[]⟩ 2).output_len ≠ 1 := by
  decide

/-- C1 (amended): for every of the six `(MergeVariant, DistributionMode)`
combinations the pipeline built by `build_merge_into` ends with the
canonical output port count documented in the source: local mode ends with
2 ports (`MutationLogs`, `MutationLogs`) when the matched branch is active
and 1 port for insert-only; distributed mode ends with 3 ports
(`MutationLogs`, `MutationLogs`, row numbers) for `FullOperation`, 2 for
`MatechedOnly` and 1 (row numbers) for `InsertOnly`. -/
theorem c1_canonical_ports (max_threads : Nat) (sch : TableSchema) (m : Nat)
    (hm : 0 < m) : merge_canonical_ports max_threads sch m := by
  unfold merge_canonical_ports
  refine ⟨?_, ?_, ?_, ?_, ?_, ?_⟩
  · rw [trace_full_local max_threads sch m hm]
  · rw [trace_matched_local max_threads sch m hm]
  · rw [trace_insert_local max_threads sch m hm]
  · rw [trace_full_dist max_threads sch m hm]
  · rw [trace_matched_dist max_threads sch m hm]
  · rw [trace_insert_dist max_threads sch m]

theorem c1_witness : 0 < 1 ∧ merge_canonical_ports 1 ⟨[]⟩ 1 :=
  ⟨Nat.one_pos, c1_canonical_ports 1 ⟨[]⟩ 1 Nat.one_pos⟩

/-- C2: for the `MatechedOnly` variant, in either distribution mode, the
graph built by `build_merge_into` contains no unmatched-insert-path stage —
no `MergeIntoNotMatchedProcessor`, no row-number projection item, no
`AccumulateRowNumber` item — and `build_merge_into_append_not_matched`
adds nothing beyond the resize to one for this variant. -/
theorem c2_matched_only_no_unmatched_stage (d : Bool) (mt : Nat) (sch : TableSchema)
    (m : Nat) (pb : PB) (hm : 0 < m) :
    unmatched_stage_free (build_merge_into MergeIntoType.MatechedOnly d mt sch m) ∧
    build_merge_into_append_not_matched MergeIntoType.MatechedOnly sch pb =
      pb.try_resize 1 := by
  constructor
  · have key : unmatched_stage_free
        (build_merge_into MergeIntoType.MatechedOnly false mt sch m) := by
      rw [trace_matched_local mt sch m hm]
      intro op hop
      by_cases hsch : schema_differs sch <;>
        simp only [hsch, if_true, if_false, List.mem_append, List.mem_cons,
          List.not_mem_nil, or_false, false_or, or_assoc] at hop <;>
        [rcases hop with rfl|rfl|rfl|rfl|rfl|rfl|rfl|rfl|rfl;
         rcases hop with rfl|rfl|rfl|rfl|rfl|rfl|rfl|rfl] <;>
        intro it hit <;>
        simp only [PipeOp.items, mem_flatten_replicate_pos hm, List.mem_cons,
          mem_replicate_pos hm, List.not_mem_nil, or_false, false_or, or_assoc] at hit <;>
        (try rcases hit with hit | hit) <;>
        (try rcases hit with hit | hit) <;>
        (try subst hit) <;>
        simp [matchedSplitItem, notMatchedItem, dummyItem, fillDefaultItem, fillComputedItem,
          clusterSortItem, rowIdAggregateItem, serializeBlockItem, serializeSegmentItem,
          accumulateRowNumberItem]
    cases d
    · exact key
    · rw [matched_dist_eq_local mt sch m hm]
      exact key
  · simp [build_merge_into_append_not_matched]

theorem c2_witness :
    0 < 1 ∧
      (unmatched_stage_free (build_merge_into MergeIntoType.MatechedOnly true 7 ⟨[]⟩ 1) ∧
        build_merge_into_append_not_matched MergeIntoType.MatechedOnly ⟨[]⟩ ⟨4, []⟩ =
          PB.try_resize ⟨4, []⟩ 1) :=
  ⟨Nat.one_pos, c2_matched_only_no_unmatched_stage true 7 ⟨[]⟩ 1 ⟨4, []⟩ Nat.one_pos⟩

/-- C5: `build_merge_into_source` adds the splitter pipe only for the
`FullOperation` variant — one `MergeIntoSplitProcessor` item per current
output lane, taking the pipeline from `N` to `2 * N` output ports — and for
`InsertOnly` and `MatechedOnly` it adds no pipe and leaves the lane count
unchanged. -/
theorem c5_merge_into_source_splitter (pb : PB) :
    (build_merge_into_source MergeIntoType.FullOperation pb =
      ⟨pb.output_len * 2, pb.ops ++ [PipeOp.pipe pb.output_len (pb.output_len * 2)
        (List.replicate pb.output_len mergeIntoSplitItem)]⟩) ∧
    build_merge_into_source MergeIntoType.InsertOnly pb = pb ∧
    build_merge_into_source MergeIntoType.MatechedOnly pb = pb := by
  refine ⟨?_, ?_, ?_⟩ <;> simp [build_merge_into_source, PB.add_pipe]

/-- C6: the variant mapping of `build_merge_into` is `FullOperation ↦
(step 2, need_match, need_unmatch)`, `InsertOnly ↦ (step 1, insert branch
only)`, `MatechedOnly ↦ (step 1, matched branch only)`; every variant has
at least one active branch and `FullOperation` is the only variant with
both active. -/
theorem c6_merge_step_flags_mapping :
    merge_step_flags MergeIntoType.FullOperation = (2, true, true) ∧
    merge_step_flags MergeIntoType.InsertOnly = (1, false, true) ∧
    merge_step_flags MergeIntoType.MatechedOnly = (1, true, false) ∧
    (((merge_step_flags MergeIntoType.FullOperation).2.1 ||
        (merge_step_flags MergeIntoType.FullOperation).2.2) = true) ∧
    (((merge_step_flags MergeIntoType.InsertOnly).2.1 ||
        (merge_step_flags MergeIntoType.InsertOnly).2.2) = true) ∧
    (((merge_step_flags MergeIntoType.MatechedOnly).2.1 ||
        (merge_step_flags MergeIntoType.MatechedOnly).2.2) = true) ∧
    (((merge_step_flags MergeIntoType.FullOperation).2.1 &&
        (merge_step_flags MergeIntoType.FullOperation).2.2) = true) ∧
    (((merge_step_flags MergeIntoType.InsertOnly).2.1 &&
        (merge_step_flags MergeIntoType.InsertOnly).2.2) = false) ∧
    (((merge_step_flags MergeIntoType.MatechedOnly).2.1 &&
        (merge_step_flags MergeIntoType.MatechedOnly).2.2) = false) := by
  decide

/-- C7: for a port count divisible by the step (2 or 3), the ranges built
by `resize_row_id` cover each port index in `0 .. n` exactly once — their
concatenation in order is exactly `0, 1, …, n - 1` — and consist of
`n / step` singleton groups plus one leading fan-in group (and one trailing
fan-in group when `step = 3`). -/
theorem c7_resize_row_id_ranges_cover (n step : Nat)
    (hstep : step = 2 ∨ step = 3) (hdvd : step ∣ n) :
    (resize_row_id_ranges n step).flatten = List.range n ∧
    (resize_row_id_ranges n step).length =
      n / step + (if step = 3 then 2 else 1) := by
  refine ⟨resize_row_id_ranges_flatten n step hstep hdvd, ?_⟩
  rcases hstep with h | h <;> subst h <;> simp

theorem c7_witness :
    ((3 : Nat) = 2 ∨ (3 : Nat) = 3) ∧ ((3 : Nat) ∣ 6) ∧
      ((resize_row_id_ranges 6 3).flatten = List.range 6 ∧
        (resize_row_id_ranges 6 3).length = 6 / 3 + (if (3 : Nat) = 3 then 2 else 1)) :=
  ⟨Or.inr rfl, ⟨2, rfl⟩, c7_resize_row_id_ranges_cover 6 3 (Or.inr rfl) ⟨2, rfl⟩⟩

end MergeDemo

namespace MergeDemo

/-- C3: if the current node's local id has no entry in the plan's
`cluster_index` map, `build_add_row_number` returns a build-time
`NotFoundClusterNode` error whose message names the missing node id, and
the pipeline state is returned in no form (no transform is added); if the
entry exists it succeeds, appending exactly one row-number-tagging
transform pipe (one `TransformAddRowNumberColumnProcessor` per lane). -/
theorem c3_add_row_number (cluster_index : List (String × Nat)) (local_id : String)
    (pb : PB) :
    (cluster_index.lookup local_id = none →
      build_add_row_number cluster_index local_id pb =
        Except.error (ErrorCode.NotFoundClusterNode
          ("can't find out " ++ local_id ++
            " when build distributed merge into pipeline"))) ∧
    (∀ node_index, cluster_index.lookup local_id = some node_index →
      build_add_row_number cluster_index local_id pb =
        Except.ok ⟨pb.output_len, pb.ops ++ [PipeOp.pipe pb.output_len pb.output_len
          (List.replicate pb.output_len
            ⟨ItemKind.addRowNumber (node_index % 65536), 1, 1⟩)]⟩) := by
  constructor
  · intro h
    simp [build_add_row_number, h]
  · intro node_index h
    simp [build_add_row_number, h, PB.add_transform, PB.add_pipe]

theorem c3_witness :
    (([("node-a", 3)] : List (String × Nat)).lookup "node-b" = none ∧
      build_add_row_number [("node-a", 3)] "node-b" ⟨2, []⟩ =
        Except.error (ErrorCode.NotFoundClusterNode
          ("can't find out " ++ "node-b" ++
            " when build distributed merge into pipeline"))) ∧
    (([("node-a", 3)] : List (String × Nat)).lookup "node-a" = some 3 ∧
      build_add_row_number [("node-a", 3)] "node-a" ⟨2, []⟩ =
        Except.ok ⟨2, [PipeOp.pipe 2 2
          (List.replicate 2 ⟨ItemKind.addRowNumber (3 % 65536), 1, 1⟩)]⟩) :=
  ⟨⟨by decide, (c3_add_row_number [("node-a", 3)] "node-b" ⟨2, []⟩).1 (by decide)⟩,
   ⟨by decide, (c3_add_row_number [("node-a", 3)] "node-a" ⟨2, []⟩).2 3 (by decide)⟩⟩

/-- C8: every reorder rule vector `build_merge_into` passes to
`reorder_inputs` is a permutation of the port indices `0 .. output_len` at
the moment of the call (the entry lane count makes the interleave factor —
2 in the local and distributed matched-only cases, 3 in the distributed
full-operation case — divide the port count). -/
theorem c8_reorder_rules_permutations (merge_type : MergeIntoType) (d : Bool)
    (mt m : Nat) (sch : TableSchema) (hm : 0 < m) :
    reorders_are_permutations
      (build_merge_into merge_type d mt sch (merge_entry_len merge_type m)) := by
  cases merge_type <;> cases d
  · have he : merge_entry_len MergeIntoType.FullOperation m = 2 * m := rfl
    rw [he, trace_full_local mt sch m hm]
    intro len rules hmem
    by_cases hsch : schema_differs sch <;>
      simp [hsch] at hmem <;>
      obtain ⟨rfl, rfl⟩ := hmem <;>
      exact shuffle_rules2_perm (2 * m) ⟨m, rfl⟩
  · have he : merge_entry_len MergeIntoType.FullOperation m = 2 * m := rfl
    rw [he, trace_full_dist mt sch m hm]
    intro len rules hmem
    by_cases hsch : schema_differs sch <;>
      simp [hsch] at hmem <;>
      obtain ⟨rfl, rfl⟩ := hmem <;>
      exact shuffle_rules3_perm (m * 3) ⟨m, by ring⟩
  · have he : merge_entry_len MergeIntoType.InsertOnly m = m := rfl
    rw [he, trace_insert_local mt sch m hm]
    intro len rules hmem
    by_cases hsch : schema_differs sch <;> simp [hsch] at hmem
  · have he : merge_entry_len MergeIntoType.InsertOnly m = m := rfl
    rw [he, trace_insert_dist mt sch m]
    intro len rules hmem
    by_cases hsch : schema_differs sch <;> simp [hsch] at hmem
  · have he : merge_entry_len MergeIntoType.MatechedOnly m = m := rfl
    rw [he, trace_matched_local mt sch m hm]
    intro len rules hmem
    by_cases hsch : schema_differs sch <;>
      simp [hsch] at hmem <;>
      obtain ⟨rfl, rfl⟩ := hmem <;>
      exact shuffle_rules2_perm (m * 2) ⟨m, by ring⟩
  · have he : merge_entry_len MergeIntoType.MatechedOnly m = m := rfl
    rw [he, trace_matched_dist mt sch m hm]
    intro len rules hmem
    by_cases hsch : schema_differs sch <;>
      simp [hsch] at hmem <;>
      obtain ⟨rfl, rfl⟩ := hmem <;>
      exact shuffle_rules2_perm (m * 2) ⟨m, by ring⟩

theorem c8_witness :
    0 < 1 ∧ reorders_are_permutations
      (build_merge_into MergeIntoType.FullOperation true 0 ⟨[]⟩
        (merge_entry_len MergeIntoType.FullOperation 1)) :=
  ⟨Nat.one_pos, c8_reorder_rules_permutations MergeIntoType.FullOperation true 0 1 ⟨[]⟩
    Nat.one_pos⟩

end MergeDemo

namespace MergeDemo

theorem c9_key_local (mt m : Nat) (sch : TableSchema) (hm : 0 < m) :
    rowid_semaphore_ok (build_merge_into MergeIntoType.MatechedOnly false mt sch m) mt := by
  rw [trace_matched_local mt sch m hm]
  constructor
  · refine ⟨PipeOp.pipe (1 + m) (1 + m)
      (rowIdAggregateItem mt :: List.replicate m serializeBlockItem), ?_,
      rowIdAggregateItem mt, ?_, rfl⟩
    · by_cases hsch : schema_differs sch <;> simp [hsch]
    · simp [PipeOp.items]
  · intro op hop
    by_cases hsch : schema_differs sch <;>
      simp only [hsch, if_true, if_false, List.mem_append, List.mem_cons,
        List.not_mem_nil, or_false, false_or, or_assoc] at hop <;>
      [rcases hop with rfl|rfl|rfl|rfl|rfl|rfl|rfl|rfl|rfl;
       rcases hop with rfl|rfl|rfl|rfl|rfl|rfl|rfl|rfl] <;>
      intro it hit <;>
      simp only [PipeOp.items, mem_flatten_replicate_pos hm, List.mem_cons,
        mem_replicate_pos hm, List.not_mem_nil, or_false, false_or, or_assoc] at hit <;>
      (try rcases hit with hit | hit) <;>
      (try rcases hit with hit | hit) <;>
      (try subst hit) <;>
      intro p hkind <;>
      simp [matchedSplitItem, notMatchedItem, dummyItem, fillDefaultItem, fillComputedItem,
        clusterSortItem, rowIdAggregateItem, serializeBlockItem, serializeSegmentItem,
        accumulateRowNumberItem] at hkind <;>
      omega

theorem c9_key_full_local (mt m : Nat) (sch : TableSchema) (hm : 0 < m) :
    rowid_semaphore_ok (build_merge_into MergeIntoType.FullOperation false mt sch (2 * m)) mt := by
  rw [trace_full_local mt sch m hm]
  constructor
  · refine ⟨PipeOp.pipe (1 + m) (1 + m)
      (rowIdAggregateItem mt :: List.replicate m serializeBlockItem), ?_,
      rowIdAggregateItem mt, ?_, rfl⟩
    · by_cases hsch : schema_differs sch <;> simp [hsch]
    · simp [PipeOp.items]
  · intro op hop
    by_cases hsch : schema_differs sch <;>
      simp only [hsch, if_true, if_false, List.mem_append, List.mem_cons,
        List.not_mem_nil, or_false, false_or, or_assoc] at hop <;>
      [rcases hop with rfl|rfl|rfl|rfl|rfl|rfl|rfl|rfl|rfl|rfl;
       rcases hop with rfl|rfl|rfl|rfl|rfl|rfl|rfl|rfl|rfl] <;>
      intro it hit <;>
      simp only [PipeOp.items, mem_flatten_replicate_pos hm, List.mem_cons,
        mem_replicate_pos hm, List.not_mem_nil, or_false, false_or, or_assoc] at hit <;>
      (try rcases hit with hit | hit) <;>
      (try rcases hit with hit | hit) <;>
      (try subst hit) <;>
      intro p hkind <;>
      simp [matchedSplitItem, notMatchedItem, dummyItem, fillDefaultItem, fillComputedItem,
        clusterSortItem, rowIdAggregateItem, serializeBlockItem, serializeSegmentItem,
        accumulateRowNumberItem] at hkind <;>
      omega

theorem c9_key_full_dist (mt m : Nat) (sch : TableSchema) (hm : 0 < m) :
    rowid_semaphore_ok (build_merge_into MergeIntoType.FullOperation true mt sch (2 * m)) mt := by
  rw [trace_full_dist mt sch m hm]
  constructor
  · refine ⟨PipeOp.pipe (1 + (m + 1)) (1 + (m + 1))
      (rowIdAggregateItem mt :: (List.replicate m serializeBlockItem ++ [dummyItem])), ?_,
      rowIdAggregateItem mt, ?_, rfl⟩
    · by_cases hsch : schema_differs sch <;> simp [hsch]
    · simp [PipeOp.items]
  · intro op hop
    by_cases hsch : schema_differs sch <;>
      simp only [hsch, if_true, if_false, List.mem_append, List.mem_cons,
        List.not_mem_nil, or_false, false_or, or_assoc] at hop <;>
      [rcases hop with rfl|rfl|rfl|rfl|rfl|rfl|rfl|rfl|rfl|rfl;
       rcases hop with rfl|rfl|rfl|rfl|rfl|rfl|rfl|rfl|rfl] <;>
      intro it hit <;>
      simp only [PipeOp.items, mem_flatten_replicate_pos hm, List.mem_cons, List.mem_append,
        mem_replicate_pos hm, List.not_mem_nil, or_false, false_or, or_assoc] at hit <;>
      (try rcases hit with hit | hit) <;>
      (try rcases hit with hit | hit) <;>
      (try subst hit) <;>
      intro p hkind <;>
      simp [matchedSplitItem, notMatchedItem, rowNumberProjectItem, dummyItem, fillDefaultItem,
        fillComputedItem, clusterSortItem, rowIdAggregateItem, serializeBlockItem,
        serializeSegmentItem, accumulateRowNumberItem] at hkind <;>
      omega

/-- C9: for every variant in which the matched branch is active (in either
distribution mode), the I/O admission semaphore handed to the
row-identifier aggregation mutator is created with a permit count exactly
equal to the configured `max_threads` setting. -/
theorem c9_semaphore_permits (merge_type : MergeIntoType) (d : Bool) (mt m : Nat)
    (sch : TableSchema) (hm : 0 < m)
    (hmatch : (merge_step_flags merge_type).2.1 = true) :
    rowid_semaphore_ok
      (build_merge_into merge_type d mt sch (merge_entry_len merge_type m)) mt := by
  cases merge_type <;> cases d
  · exact c9_key_full_local mt m sch hm
  · exact c9_key_full_dist mt m sch hm
  · exact absurd hmatch (by decide)
  · exact absurd hmatch (by decide)
  · exact c9_key_local mt m sch hm
  · have he : merge_entry_len MergeIntoType.MatechedOnly m = m := rfl
    rw [he, matched_dist_eq_local mt sch m hm]
    exact c9_key_local mt m sch hm

theorem c9_witness :
    0 < 1 ∧ (merge_step_flags MergeIntoType.FullOperation).2.1 = true ∧
      rowid_semaphore_ok
        (build_merge_into MergeIntoType.FullOperation false 5 ⟨[]⟩
          (merge_entry_len MergeIntoType.FullOperation 1)) 5 :=
  ⟨Nat.one_pos, rfl,
    c9_semaphore_permits MergeIntoType.FullOperation false 5 1 ⟨[]⟩ Nat.one_pos rfl⟩

end MergeDemo

namespace MergeDemo

theorem computed_fill_free_matched_local (mt m : Nat) (sch : TableSchema)
    (hm : 0 < m) (hsch : ¬ schema_differs sch) :
    computed_fill_free (build_merge_into MergeIntoType.MatechedOnly false mt sch m).ops := by
  rw [trace_matched_local mt sch m hm]
  intro op hop
  simp only [hsch, if_true, if_false, List.mem_append, List.mem_cons,
    List.not_mem_nil, or_false, false_or, or_assoc] at hop
  rcases hop with rfl|rfl|rfl|rfl|rfl|rfl|rfl|rfl <;>
    intro it hit <;>
    simp only [PipeOp.items, mem_flatten_replicate_pos hm, List.mem_cons,
      mem_replicate_pos hm, List.not_mem_nil, or_false, false_or, or_assoc] at hit <;>
    (try rcases hit with hit | hit) <;>
    (try rcases hit with hit | hit) <;>
    (try subst hit) <;>
    simp [matchedSplitItem, dummyItem, fillDefaultItem, clusterSortItem,
      rowIdAggregateItem, serializeBlockItem, serializeSegmentItem]

theorem computed_fill_free_of_eq (merge_type : MergeIntoType) (d : Bool) (mt m : Nat)
    (sch : TableSchema) (hm : 0 < m) (hsch : ¬ schema_differs sch) :
    computed_fill_free
      (build_merge_into merge_type d mt sch (merge_entry_len merge_type m)).ops := by
  cases merge_type <;> cases d
  · rw [show merge_entry_len MergeIntoType.FullOperation m = 2 * m from rfl,
      trace_full_local mt sch m hm]
    intro op hop
    simp only [hsch, if_true, if_false, List.mem_append, List.mem_cons,
      List.not_mem_nil, or_false, false_or, or_assoc] at hop
    rcases hop with rfl|rfl|rfl|rfl|rfl|rfl|rfl|rfl|rfl <;>
      intro it hit <;>
      simp only [PipeOp.items, mem_flatten_replicate_pos hm, List.mem_cons,
        mem_replicate_pos hm, List.not_mem_nil, or_false, false_or, or_assoc] at hit <;>
      (try rcases hit with hit | hit) <;>
      (try rcases hit with hit | hit) <;>
      (try subst hit) <;>
      simp [matchedSplitItem, notMatchedItem, dummyItem, fillDefaultItem,
        clusterSortItem, rowIdAggregateItem, serializeBlockItem, serializeSegmentItem]
  · rw [show merge_entry_len MergeIntoType.FullOperation m = 2 * m from rfl,
      trace_full_dist mt sch m hm]
    intro op hop
    simp only [hsch, if_true, if_false, List.mem_append, List.mem_cons,
      List.not_mem_nil, or_false, false_or, or_assoc] at hop
    rcases hop with rfl|rfl|rfl|rfl|rfl|rfl|rfl|rfl|rfl <;>
      intro it hit <;>
      simp only [PipeOp.items, mem_flatten_replicate_pos hm, List.mem_cons, List.mem_append,
        mem_replicate_pos hm, List.not_mem_nil, or_false, false_or, or_assoc] at hit <;>
      (try rcases hit with hit | hit) <;>
      (try rcases hit with hit | hit) <;>
      (try subst hit) <;>
      simp [matchedSplitItem, rowNumberProjectItem, dummyItem, fillDefaultItem,
        clusterSortItem, rowIdAggregateItem, serializeBlockItem, serializeSegmentItem,
        accumulateRowNumberItem]
  · rw [show merge_entry_len MergeIntoType.InsertOnly m = m from rfl,
      trace_insert_local mt sch m hm]
    intro op hop
    simp only [hsch, if_true, if_false, List.mem_append, List.mem_cons,
      List.not_mem_nil, or_false, false_or, or_assoc] at hop
    rcases hop with rfl|rfl|rfl|rfl|rfl|rfl <;>
      intro it hit <;>
      simp only [PipeOp.items, mem_flatten_replicate_pos hm, List.mem_cons,
        mem_replicate_pos hm, List.not_mem_nil, or_false, false_or, or_assoc] at hit <;>
      (try rcases hit with hit | hit) <;>
      (try subst hit) <;>
      simp [notMatchedItem, fillDefaultItem, clusterSortItem, serializeBlockItem,
        serializeSegmentItem]
  · rw [show merge_entry_len MergeIntoType.InsertOnly m = m from rfl,
      trace_insert_dist mt sch m]
    intro op hop
    simp only [hsch, if_true, if_false, List.mem_append, List.mem_cons,
      List.not_mem_nil, or_false, false_or, or_assoc] at hop
    rcases hop with rfl|rfl|rfl|rfl|rfl|rfl|rfl|rfl <;>
      intro it hit <;>
      simp only [PipeOp.items, mem_flatten_replicate_pos hm, List.mem_cons,
        mem_replicate_pos hm, List.not_mem_nil, or_false, false_or, or_assoc] at hit <;>
      (try rcases hit with hit | hit) <;>
      (try subst hit) <;>
      simp [rowNumberProjectItem, dummyItem, accumulateRowNumberItem]
  · exact computed_fill_free_matched_local mt m sch hm hsch
  · rw [show merge_entry_len MergeIntoType.MatechedOnly m = m from rfl,
      matched_dist_eq_local mt sch m hm]
    exact computed_fill_free_matched_local mt m sch hm hsch

end MergeDemo

namespace MergeDemo

theorem merge_ops_length (merge_type : MergeIntoType) (d : Bool) (mt m : Nat)
    (sch : TableSchema) (hm : 0 < m) :
    (build_merge_into merge_type d mt sch (merge_entry_len merge_type m)).ops.length =
      merge_ops_base merge_type d + (if schema_differs sch then 1 else 0) := by
  cases merge_type <;> cases d
  · rw [show merge_entry_len MergeIntoType.FullOperation m = 2 * m from rfl,
      trace_full_local mt sch m hm]
    by_cases hsch : schema_differs sch <;> simp [hsch, merge_ops_base]
  · rw [show merge_entry_len MergeIntoType.FullOperation m = 2 * m from rfl,
      trace_full_dist mt sch m hm]
    by_cases hsch : schema_differs sch <;> simp [hsch, merge_ops_base]
  · rw [show merge_entry_len MergeIntoType.InsertOnly m = m from rfl,
      trace_insert_local mt sch m hm]
    by_cases hsch : schema_differs sch <;> simp [hsch, merge_ops_base]
  · rw [show merge_entry_len MergeIntoType.InsertOnly m = m from rfl,
      trace_insert_dist mt sch m]
    by_cases hsch : schema_differs sch <;> simp [hsch, merge_ops_base]
  · rw [show merge_entry_len MergeIntoType.MatechedOnly m = m from rfl,
      trace_matched_local mt sch m hm]
    by_cases hsch : schema_differs sch <;> simp [hsch, merge_ops_base]
  · rw [show merge_entry_len MergeIntoType.MatechedOnly m = m from rfl,
      trace_matched_dist mt sch m hm]
    by_cases hsch : schema_differs sch <;> simp [hsch, merge_ops_base]

theorem merge_output_len_schema_invariant (merge_type : MergeIntoType) (d : Bool)
    (mt m : Nat) (sch : TableSchema) (hm : 0 < m) :
    (build_merge_into merge_type d mt sch (merge_entry_len merge_type m)).output_len =
      (build_merge_into merge_type d mt ⟨[]⟩ (merge_entry_len merge_type m)).output_len := by
  cases merge_type <;> cases d
  · rw [show merge_entry_len MergeIntoType.FullOperation m = 2 * m from rfl]
    simp only [trace_full_local mt sch m hm, trace_full_local mt ⟨[]⟩ m hm]
  · rw [show merge_entry_len MergeIntoType.FullOperation m = 2 * m from rfl]
    simp only [trace_full_dist mt sch m hm, trace_full_dist mt ⟨[]⟩ m hm]
  · rw [show merge_entry_len MergeIntoType.InsertOnly m = m from rfl]
    simp only [trace_insert_local mt sch m hm, trace_insert_local mt ⟨[]⟩ m hm]
  · rw [show merge_entry_len MergeIntoType.InsertOnly m = m from rfl]
    simp only [trace_insert_dist mt sch m, trace_insert_dist mt ⟨[]⟩ m]
  · rw [show merge_entry_len MergeIntoType.MatechedOnly m = m from rfl]
    simp only [trace_matched_local mt sch m hm, trace_matched_local mt ⟨[]⟩ m hm]
  · rw [show merge_entry_len MergeIntoType.MatechedOnly m = m from rfl]
    simp only [trace_matched_dist mt sch m hm, trace_matched_dist mt ⟨[]⟩ m hm]

theorem append_not_matched_ops_length (merge_type : MergeIntoType) (sch : TableSchema)
    (pb : PB) (h : merge_type ≠ MergeIntoType.MatechedOnly) :
    (build_merge_into_append_not_matched merge_type sch pb).ops.length =
      pb.ops.length + 10 + (if schema_differs sch then 1 else 0) := by
  by_cases hsch : schema_differs sch <;>
    simp [build_merge_into_append_not_matched, h, hsch, PB.try_resize, PB.add_pipe,
      cluster_gen_items] <;>
    omega

theorem append_not_matched_computed_free (merge_type : MergeIntoType) (sch : TableSchema)
    (pb : PB) (hsch : ¬ schema_differs sch) :
    computed_fill_free
      ((build_merge_into_append_not_matched merge_type sch pb).ops.drop pb.ops.length) := by
  by_cases h : merge_type = MergeIntoType.MatechedOnly
  · subst h
    simp [build_merge_into_append_not_matched, PB.try_resize]
    unfold computed_fill_free
    decide
  · simp only [build_merge_into_append_not_matched, if_neg h, if_neg hsch, PB.try_resize,
      PB.add_pipe, cluster_gen_items, List.append_assoc, List.cons_append, List.nil_append]
    rw [List.drop_left]
    unfold computed_fill_free
    decide

/-- C4: in both `build_merge_into` and `build_merge_into_append_not_matched`
the computed-column fill stage is added if and only if the table's default
schema (computed fields removed) differs from its computed schema (virtual
computed fields removed): the guard adds exactly one extra stage when the
schemas differ, when they are equal the stage is skipped entirely (no
`TransformAddComputedColumns` item anywhere) and the skipped step leaves
the final port layout unchanged; the matched-only variant of the append
path stops before either fill stage. -/
theorem c4_computed_stage_guard (merge_type : MergeIntoType) (d : Bool) (mt m : Nat)
    (sch : TableSchema) (pb : PB) (hm : 0 < m) :
    computed_stage_guarded merge_type d mt m sch pb := by
  refine ⟨merge_ops_length merge_type d mt m sch hm,
    fun hsch => computed_fill_free_of_eq merge_type d mt m sch hm hsch,
    merge_output_len_schema_invariant merge_type d mt m sch hm,
    fun ht => append_not_matched_ops_length merge_type sch pb ht,
    fun hsch => append_not_matched_computed_free merge_type sch pb hsch,
    fun ht => by subst ht; simp [build_merge_into_append_not_matched]⟩

theorem c4_witness : 0 < 1 ∧ computed_stage_guarded MergeIntoType.FullOperation false 0 1
    ⟨[⟨"a", ComputedKind.plain⟩, ⟨"b", ComputedKind.stored⟩]⟩ ⟨3, []⟩ :=
  ⟨Nat.one_pos, c4_computed_stage_guard MergeIntoType.FullOperation false 0 1
    ⟨[⟨"a", ComputedKind.plain⟩, ⟨"b", ComputedKind.stored⟩]⟩ ⟨3, []⟩ Nat.one_pos⟩

end MergeDemo

namespace MergeDemo

theorem fill_ok_full_local (mt m : Nat) (sch : TableSchema) (hm : 0 < m) :
    fill_pipes_ok (build_merge_into MergeIntoType.FullOperation false mt sch (2 * m))
      false true true m (1 + m) := by
  have hd : fill_stage_pipe fillDefaultItem false true true m =
      PipeOp.pipe (1 + m) (1 + m) (dummyItem :: List.replicate m fillDefaultItem) := by
    simp [fill_stage_pipe, fill_stage_items, add_builder_pipe]
  have hc : fill_stage_pipe fillComputedItem false true true m =
      PipeOp.pipe (1 + m) (1 + m) (dummyItem :: List.replicate m fillComputedItem) := by
    simp [fill_stage_pipe, fill_stage_items, add_builder_pipe]
  rw [trace_full_local mt sch m hm]
  refine ⟨?_, ?_, ?_, ?_⟩
  · rw [hd]
    by_cases hsch : schema_differs sch <;> simp [hsch]
  · intro op hop hfill
    by_cases hsch : schema_differs sch <;>
      simp only [hsch, if_true, if_false, List.mem_append, List.mem_cons,
        List.not_mem_nil, or_false, false_or, or_assoc] at hop <;>
      [rcases hop with rfl|rfl|rfl|rfl|rfl|rfl|rfl|rfl|rfl|rfl;
       rcases hop with rfl|rfl|rfl|rfl|rfl|rfl|rfl|rfl|rfl] <;>
      first
      | exact Or.inl hd.symm
      | exact Or.inr hc.symm
      | (exfalso
         obtain ⟨it, hit, hk⟩ := hfill
         simp only [PipeOp.items, mem_flatten_replicate_pos hm, List.mem_cons, List.mem_append,
           mem_replicate_pos hm, List.not_mem_nil, or_false, false_or, or_assoc] at hit <;>
         (try rcases hit with hit | hit) <;>
         (try rcases hit with hit | hit) <;>
         (try subst hit) <;>
         simp [matchedSplitItem, notMatchedItem, dummyItem, clusterSortItem,
           rowIdAggregateItem, serializeBlockItem, serializeSegmentItem] at hk)
  · simp [fill_stage_items, add_builder_pipe] <;> omega
  · simp [fill_stage_items, add_builder_pipe]

theorem fill_ok_matched_local (mt m : Nat) (sch : TableSchema) (hm : 0 < m) :
    fill_pipes_ok (build_merge_into MergeIntoType.MatechedOnly false mt sch m)
      false true false m (1 + m) := by
  have hd : fill_stage_pipe fillDefaultItem false true false m =
      PipeOp.pipe (1 + m) (1 + m) (dummyItem :: List.replicate m fillDefaultItem) := by
    simp [fill_stage_pipe, fill_stage_items, add_builder_pipe]
  have hc : fill_stage_pipe fillComputedItem false true false m =
      PipeOp.pipe (1 + m) (1 + m) (dummyItem :: List.replicate m fillComputedItem) := by
    simp [fill_stage_pipe, fill_stage_items, add_builder_pipe]
  rw [trace_matched_local mt sch m hm]
  refine ⟨?_, ?_, ?_, ?_⟩
  · rw [hd]
    by_cases hsch : schema_differs sch <;> simp [hsch]
  · intro op hop hfill
    by_cases hsch : schema_differs sch <;>
      simp only [hsch, if_true, if_false, List.mem_append, List.mem_cons,
        List.not_mem_nil, or_false, false_or, or_assoc] at hop <;>
      [rcases hop with rfl|rfl|rfl|rfl|rfl|rfl|rfl|rfl|rfl;
       rcases hop with rfl|rfl|rfl|rfl|rfl|rfl|rfl|rfl] <;>
      first
      | exact Or.inl hd.symm
      | exact Or.inr hc.symm
      | (exfalso
         obtain ⟨it, hit, hk⟩ := hfill
         simp only [PipeOp.items, mem_flatten_replicate_pos hm, List.mem_cons, List.mem_append,
           mem_replicate_pos hm, List.not_mem_nil, or_false, false_or, or_assoc] at hit <;>
         (try rcases hit with hit | hit) <;>
         (try rcases hit with hit | hit) <;>
         (try subst hit) <;>
         simp [matchedSplitItem, dummyItem, clusterSortItem,
           rowIdAggregateItem, serializeBlockItem, serializeSegmentItem] at hk)
  · simp [fill_stage_items, add_builder_pipe] <;> omega
  · simp [fill_stage_items, add_builder_pipe]

theorem fill_ok_insert_local (mt m : Nat) (sch : TableSchema) (hm : 0 < m) :
    fill_pipes_ok (build_merge_into MergeIntoType.InsertOnly false mt sch m)
      false false true m m := by
  have hd : fill_stage_pipe fillDefaultItem false false true m =
      PipeOp.pipe m m (List.replicate m fillDefaultItem) := by
    simp [fill_stage_pipe, fill_stage_items, add_builder_pipe]
  have hc : fill_stage_pipe fillComputedItem false false true m =
      PipeOp.pipe m m (List.replicate m fillComputedItem) := by
    simp [fill_stage_pipe, fill_stage_items, add_builder_pipe]
  rw [trace_insert_local mt sch m hm]
  refine ⟨?_, ?_, ?_, ?_⟩
  · rw [hd]
    by_cases hsch : schema_differs sch <;> simp [hsch]
  · intro op hop hfill
    by_cases hsch : schema_differs sch <;>
      simp only [hsch, if_true, if_false, List.mem_append, List.mem_cons,
        List.not_mem_nil, or_false, false_or, or_assoc] at hop <;>
      [rcases hop with rfl|rfl|rfl|rfl|rfl|rfl|rfl;
       rcases hop with rfl|rfl|rfl|rfl|rfl|rfl] <;>
      first
      | exact Or.inl hd.symm
      | exact Or.inr hc.symm
      | (exfalso
         obtain ⟨it, hit, hk⟩ := hfill
         simp only [PipeOp.items, mem_flatten_replicate_pos hm, List.mem_cons, List.mem_append,
           mem_replicate_pos hm, List.not_mem_nil, or_false, false_or, or_assoc] at hit <;>
         (try rcases hit with hit | hit) <;>
         (try rcases hit with hit | hit) <;>
         (try subst hit) <;>
         simp [notMatchedItem, dummyItem, clusterSortItem,
           serializeBlockItem, serializeSegmentItem] at hk)
  · simp [fill_stage_items, add_builder_pipe]
  · simp [fill_stage_items, add_builder_pipe]

theorem fill_ok_full_dist (mt m : Nat) (sch : TableSchema) (hm : 0 < m) :
    fill_pipes_ok (build_merge_into MergeIntoType.FullOperation true mt sch (2 * m))
      true true true m (1 + (m + 1)) := by
  have hd : fill_stage_pipe fillDefaultItem true true true m =
      PipeOp.pipe (1 + (m + 1)) (1 + (m + 1))
        (dummyItem :: (List.replicate m fillDefaultItem ++ [dummyItem])) := by
    simp [fill_stage_pipe, fill_stage_items, add_builder_pipe]
  have hc : fill_stage_pipe fillComputedItem true true true m =
      PipeOp.pipe (1 + (m + 1)) (1 + (m + 1))
        (dummyItem :: (List.replicate m fillComputedItem ++ [dummyItem])) := by
    simp [fill_stage_pipe, fill_stage_items, add_builder_pipe]
  rw [trace_full_dist mt sch m hm]
  refine ⟨?_, ?_, ?_, ?_⟩
  · rw [hd]
    by_cases hsch : schema_differs sch <;> simp [hsch]
  · intro op hop hfill
    by_cases hsch : schema_differs sch <;>
      simp only [hsch, if_true, if_false, List.mem_append, List.mem_cons,
        List.not_mem_nil, or_false, false_or, or_assoc] at hop <;>
      [rcases hop with rfl|rfl|rfl|rfl|rfl|rfl|rfl|rfl|rfl|rfl;
       rcases hop with rfl|rfl|rfl|rfl|rfl|rfl|rfl|rfl|rfl] <;>
      first
      | exact Or.inl hd.symm
      | exact Or.inr hc.symm
      | (exfalso
         obtain ⟨it, hit, hk⟩ := hfill
         simp only [PipeOp.items, mem_flatten_replicate_pos hm, List.mem_cons, List.mem_append,
           mem_replicate_pos hm, List.not_mem_nil, or_false, false_or, or_assoc] at hit <;>
         (try rcases hit with hit | hit) <;>
         (try rcases hit with hit | hit) <;>
         (try subst hit) <;>
         simp [matchedSplitItem, rowNumberProjectItem, dummyItem, clusterSortItem,
           rowIdAggregateItem, serializeBlockItem, serializeSegmentItem,
           accumulateRowNumberItem] at hk)
  · simp [fill_stage_items, add_builder_pipe] <;> omega
  · simp [fill_stage_items, add_builder_pipe]

theorem fill_ok_matched_dist (mt m : Nat) (sch : TableSchema) (hm : 0 < m) :
    fill_pipes_ok (build_merge_into MergeIntoType.MatechedOnly true mt sch m)
      true true false m (1 + m) := by
  have hd : fill_stage_pipe fillDefaultItem true true false m =
      PipeOp.pipe (1 + m) (1 + m) (dummyItem :: List.replicate m fillDefaultItem) := by
    simp [fill_stage_pipe, fill_stage_items, add_builder_pipe]
  have hc : fill_stage_pipe fillComputedItem true true false m =
      PipeOp.pipe (1 + m) (1 + m) (dummyItem :: List.replicate m fillComputedItem) := by
    simp [fill_stage_pipe, fill_stage_items, add_builder_pipe]
  rw [trace_matched_dist mt sch m hm]
  refine ⟨?_, ?_, ?_, ?_⟩
  · rw [hd]
    by_cases hsch : schema_differs sch <;> simp [hsch]
  · intro op hop hfill
    by_cases hsch : schema_differs sch <;>
      simp only [hsch, if_true, if_false, List.mem_append, List.mem_cons,
        List.not_mem_nil, or_false, false_or, or_assoc] at hop <;>
      [rcases hop with rfl|rfl|rfl|rfl|rfl|rfl|rfl|rfl|rfl;
       rcases hop with rfl|rfl|rfl|rfl|rfl|rfl|rfl|rfl] <;>
      first
      | exact Or.inl hd.symm
      | exact Or.inr hc.symm
      | (exfalso
         obtain ⟨it, hit, hk⟩ := hfill
         simp only [PipeOp.items, mem_flatten_replicate_pos hm, List.mem_cons, List.mem_append,
           mem_replicate_pos hm, List.not_mem_nil, or_false, false_or, or_assoc] at hit <;>
         (try rcases hit with hit | hit) <;>
         (try rcases hit with hit | hit) <;>
         (try subst hit) <;>
         simp [matchedSplitItem, dummyItem, clusterSortItem,
           rowIdAggregateItem, serializeBlockItem, serializeSegmentItem] at hk)
  · simp [fill_stage_items, add_builder_pipe] <;> omega
  · simp [fill_stage_items, add_builder_pipe]

theorem fill_ok_insert_dist (mt m : Nat) (sch : TableSchema) (hm : 0 < m) :
    fill_pipes_ok (build_merge_into MergeIntoType.InsertOnly true mt sch m)
      true false true 0 1 := by
  have hd : fill_stage_pipe fillDefaultItem true false true 0 =
      PipeOp.pipe 1 1 [dummyItem] := by
    simp [fill_stage_pipe, fill_stage_items, add_builder_pipe]
  have hc : fill_stage_pipe fillComputedItem true false true 0 =
      PipeOp.pipe 1 1 [dummyItem] := by
    simp [fill_stage_pipe, fill_stage_items, add_builder_pipe]
  rw [trace_insert_dist mt sch m]
  refine ⟨?_, ?_, ?_, ?_⟩
  · rw [hd]
    by_cases hsch : schema_differs sch <;> simp [hsch]
  · intro op hop hfill
    by_cases hsch : schema_differs sch <;>
      simp only [hsch, if_true, if_false, List.mem_append, List.mem_cons,
        List.not_mem_nil, or_false, false_or, or_assoc] at hop <;>
      [rcases hop with rfl|rfl|rfl|rfl|rfl|rfl|rfl|rfl|rfl;
       rcases hop with rfl|rfl|rfl|rfl|rfl|rfl|rfl|rfl] <;>
      first
      | exact Or.inl hd.symm
      | exact Or.inr hc.symm
      | (exfalso
         obtain ⟨it, hit, hk⟩ := hfill
         simp only [PipeOp.items, mem_flatten_replicate_pos hm, List.mem_cons, List.mem_append,
           mem_replicate_pos hm, List.not_mem_nil, or_false, false_or, or_assoc] at hit <;>
         (try rcases hit with hit | hit) <;>
         (try rcases hit with hit | hit) <;>
         (try subst hit) <;>
         simp [rowNumberProjectItem, dummyItem, accumulateRowNumberItem] at hk)
  · simp [fill_stage_items, add_builder_pipe]
  · simp [fill_stage_items, add_builder_pipe]

/-- C10: for every `(MergeVariant, DistributionMode)` combination, each
column-fill pipe assembled by `add_builder_pipe` contains exactly one pipe
item per current pipeline output port — `fill_default_len` fill transforms,
plus one prepended dummy item exactly when the matched branch is active
(the row-id lane) and, in distributed mode, one appended dummy item exactly
when the unmatched branch is active (the row-number lane) — so the fill
stage preserves the port count and the positions of the pass-through
lanes. -/
theorem c10_fill_stage_layout (max_threads m : Nat) (sch : TableSchema) (hm : 0 < m) :
    fill_stage_layouts max_threads m sch :=
  ⟨fill_ok_full_local max_threads m sch hm,
   fill_ok_matched_local max_threads m sch hm,
   fill_ok_insert_local max_threads m sch hm,
   fill_ok_full_dist max_threads m sch hm,
   fill_ok_matched_dist max_threads m sch hm,
   fill_ok_insert_dist max_threads m sch hm⟩

theorem c10_witness : 0 < 1 ∧ fill_stage_layouts 2 1 ⟨[]⟩ :=
  ⟨Nat.one_pos, c10_fill_stage_layout 2 1 ⟨[]⟩ Nat.one_pos⟩

end MergeDemo
